import Mathlib

/-!
Verification of the streaming VAD segmenter and pipeline core of the `ahin`
voice assistant.

The definitions below are a shallow embedding of the state machine in
`src/ahin/vad_fast.py` (`_SileroVADState` and the wrapper
`VoiceActivityDetectorXNNPACK`) and of the pipeline pieces in
`src/ahin/voice_assistant_fast.py` / `voice_assistant_faster.py`
(`_audio_callback`, the per-frame segment-drain loop of `_asr_worker`, and
`_play_and_clear` inside `_handle_command`).

Python floats (speech probabilities, thresholds, samples) are modelled as
rationals; the ONNX classifier session is an oracle parameter
`infer : H → List ℚ → ℚ × H` threading the recurrent hidden/cell state of
type `H` exactly as `_infer` threads `self._h`/`self._c`.  `numpy` arrays
are modelled as lists; `np.concatenate` is list append, `deque` is a list
with its front at the head.
-/

namespace Ahin

/-- Samples per inference step, `_SileroVADState.WINDOW_SIZE` (512 at 16 kHz). -/
def WINDOW_SIZE : ℕ := 512

/-- Configuration derived in `_SileroVADState.__init__`: the stored threshold
and the sample counts `min_silence_samples = int(min_silence_duration * sample_rate)`
and `min_speech_samples = int(min_speech_duration * sample_rate)`. -/
structure VADConfig where
  sample_rate : ℕ
  threshold : ℚ
  min_silence_samples : ℕ
  min_speech_samples : ℕ

/-- Mirrors the `int(duration * sample_rate)` computations of
`_SileroVADState.__init__` (Python `int()` truncates; durations are
non-negative, so this is the floor). -/
def mk_config (sample_rate : ℕ) (threshold min_silence_duration min_speech_duration : ℚ) :
    VADConfig :=
  { sample_rate := sample_rate
    threshold := threshold
    min_silence_samples := (⌊min_silence_duration * (sample_rate : ℚ)⌋).toNat
    min_speech_samples := (⌊min_speech_duration * (sample_rate : ℚ)⌋).toNat }

/-- Mutable state of `_SileroVADState`: recurrent classifier state (`_h`/`_c`),
the incoming-audio accumulation buffer (`_buffer`), the open speech segment
accumulator (`_speech_buf`), the completed-segment queue (`_segments`, front at
the head), the state-machine flag (`_in_speech`) and the silence-run counter
(`_silence_samples`). -/
structure VADState (H : Type) where
  h : H
  buffer : List ℚ
  speech_buf : List ℚ
  segments : List (List ℚ)
  in_speech : Bool
  silence_samples : ℕ

variable {H : Type}

/-- State right after `_SileroVADState.__init__`: zeroed recurrent state `h0`,
empty buffers and queue, Silence state, zero silence counter. -/
def init_state (h0 : H) : VADState H :=
  { h := h0, buffer := [], speech_buf := [], segments := [], in_speech := false
    silence_samples := 0 }

/-- The per-window state transition `_SileroVADState._update_state`
(vad_fast.py lines 128-146), given the window and its classifier
probability. -/
def update_state (cfg : VADConfig) (window : List ℚ) (prob : ℚ) (s : VADState H) :
    VADState H :=
  if cfg.threshold ≤ prob then
    { s with silence_samples := 0
             speech_buf := s.speech_buf ++ window
             in_speech := true }
  else if s.in_speech then
    let sb := s.speech_buf ++ window
    let sil := s.silence_samples + WINDOW_SIZE
    if cfg.min_silence_samples ≤ sil then
      { s with speech_buf := []
               segments := s.segments ++
                 (if cfg.min_speech_samples ≤ sb.length then [sb] else [])
               in_speech := false
               silence_samples := 0 }
    else
      { s with speech_buf := sb, silence_samples := sil }
  else s

/-- One iteration body plus loop of `_SileroVADState._process_buffer`: while the
buffer holds at least one window, peel off `WINDOW_SIZE` samples, run the
classifier on them (threading the recurrent state), and feed the result to
`_update_state`.  The `fuel` argument only bounds the iteration count; each
iteration consumes `WINDOW_SIZE > 0` samples, so a fuel of `s.buffer.length`
(as supplied by `process_buffer`) is never exhausted. -/
def process_buffer_aux (infer : H → List ℚ → ℚ × H) (cfg : VADConfig) :
    ℕ → VADState H → VADState H
  | 0, s => s
  | fuel + 1, s =>
    if WINDOW_SIZE ≤ s.buffer.length then
      let window := s.buffer.take WINDOW_SIZE
      let pr := infer s.h window
      process_buffer_aux infer cfg fuel
        (update_state cfg window pr.1 { s with buffer := s.buffer.drop WINDOW_SIZE, h := pr.2 })
    else s

/-- The loop `_SileroVADState._process_buffer` (vad_fast.py lines 121-126). -/
def process_buffer (infer : H → List ℚ → ℚ × H) (cfg : VADConfig) (s : VADState H) :
    VADState H :=
  process_buffer_aux infer cfg s.buffer.length s

/-- `_SileroVADState.accept_waveform`: append the samples to the accumulation
buffer and process whole windows. -/
def accept_waveform (infer : H → List ℚ → ℚ × H) (cfg : VADConfig) (s : VADState H)
    (samples : List ℚ) : VADState H :=
  process_buffer infer cfg { s with buffer := s.buffer ++ samples }

/-- First half of `_SileroVADState.flush` (vad_fast.py lines 72-81): if samples
remain buffered, zero-pad them to a whole window (unless they already fill
whole windows exactly) and process. -/
def flush_process (infer : H → List ℚ → ℚ × H) (cfg : VADConfig) (s : VADState H) :
    VADState H :=
  if 0 < s.buffer.length then
    let pad := WINDOW_SIZE - s.buffer.length % WINDOW_SIZE
    let padded := if pad ≠ WINDOW_SIZE
      then { s with buffer := s.buffer ++ List.replicate pad 0 } else s
    process_buffer infer cfg padded
  else s

/-- `_SileroVADState.flush` (vad_fast.py lines 72-86): process the padded
remainder, then finalise any open speech segment whose accumulated length
reaches `min_speech_samples`, clear the speech accumulator and return to
Silence. -/
def flush (infer : H → List ℚ → ℚ × H) (cfg : VADConfig) (s : VADState H) : VADState H :=
  let s1 := flush_process infer cfg s
  { s1 with
    segments := s1.segments ++
      (if s1.in_speech = true ∧ cfg.min_speech_samples ≤ s1.speech_buf.length
       then [s1.speech_buf] else [])
    speech_buf := []
    in_speech := false }

/-- `_SileroVADState.is_speech_detected`. -/
def is_speech_detected (s : VADState H) : Bool := s.in_speech

/-- `_SileroVADState.empty`: `len(self._segments) == 0`. -/
def empty (s : VADState H) : Bool := s.segments.length == 0

/-- `_SileroVADState.front_samples`: the oldest completed segment, if any. -/
def front_samples (s : VADState H) : Option (List ℚ) := s.segments.head?

/-- `_SileroVADState.pop`: drop the oldest completed segment; a no-op when the
queue is empty. -/
def pop (s : VADState H) : VADState H :=
  match s.segments with
  | [] => s
  | _ :: rest => { s with segments := rest }

/-- `VoiceActivityDetectorXNNPACK.get_speech_segment` (vad_fast.py lines
232-238): return the front segment and pop it, or `none` leaving the state
untouched.  `VoiceActivityDetector.get_speech_segment` in vad.py (lines 53-59)
has the same observable behaviour via its `empty()` guard. -/
def get_speech_segment (s : VADState H) : Option (List ℚ) × VADState H :=
  match front_samples s with
  | some xs => (some xs, pop s)
  | none => (none, s)

/-- Iterated `_update_state` over a trace of (window, classifier probability)
pairs, in arrival order — the per-window behaviour the spec's segmenter claims
quantify over.  `_process_buffer` applies exactly this fold to the windows it
peels off the buffer. -/
def run_windows (cfg : VADConfig) (ws : List (List ℚ × ℚ)) (s : VADState H) : VADState H :=
  ws.foldl (fun t wp => update_state cfg wp.1 wp.2 t) s

/-!
Pipeline pieces of `voice_assistant_fast.py` / `voice_assistant_faster.py`.
Audio frames are lists of samples; the bounded frame channel
(`mp.Queue(maxsize=cap)`) is a list with its front at the head.
-/

/-- The non-blocking enqueue of `VoiceAssistantFast._audio_callback`
(voice_assistant_fast.py lines 76-89): `put_nowait` appends the frame if the
channel is below capacity, otherwise the `queue.Full` branch drops it (the
second component counts the dropped frames of the call: 0 or 1).  The
function is total: no exception propagates and the producer never blocks. -/
def put_nowait (cap : ℕ) (q : List (List ℚ)) (f : List ℚ) : List (List ℚ) × ℕ :=
  if q.length < cap then (q ++ [f], 0) else (q, 1)

/-- Iterated audio-callback enqueues, accumulating the number of frames
dropped because the channel was full. -/
def enqueue_frames (cap : ℕ) (q : List (List ℚ)) : List (List ℚ) → List (List ℚ) × ℕ
  | [] => (q, 0)
  | f :: fs =>
    let r := put_nowait cap q f
    let rest := enqueue_frames cap r.1 fs
    (rest.1, r.2 + rest.2)

/-- The per-frame segment-drain loop of `_asr_worker`
(voice_assistant_fast.py lines 179-192, voice_assistant_faster.py lines
172-189): `while not vad.empty() and processed_count < 2`, pop the front
segment, and if it is non-empty and its transcript (after stripping) is
non-empty, push the transcript to the result channel.  `recognize` is the
external recognizer oracle, returning the already-stripped transcript;
`out` accumulates the result channel pushes of this frame. -/
def drain_loop (recognize : List ℚ → String) :
    ℕ → List (List ℚ) → List String → List (List ℚ) × List String
  | _, [], out => ([], out)
  | count, sg :: rest, out =>
    if count < 2 then
      drain_loop recognize (count + 1) rest
        (if 0 < sg.length ∧ recognize sg ≠ "" then out ++ [recognize sg] else out)
    else (sg :: rest, out)

/-- Cross-path state shared by the worker and the result-handling path: the
frame channel contents, the `tts_playing` suppression event, and the worker's
segmenter state. -/
structure PipelineState (H : Type) where
  queue : List (List ℚ)
  tts_playing : Bool
  vad : VADState H

/-- One iteration of the `_asr_worker` frame loop (voice_assistant_fast.py
lines 143-192): dequeue a frame; while `tts_playing` is set the frame is
discarded without reaching the segmenter; otherwise feed it to the VAD and run
the segment-drain loop, returning the transcripts pushed to the result
channel. -/
def worker_step (infer : H → List ℚ → ℚ × H) (cfg : VADConfig)
    (recognize : List ℚ → String) (ps : PipelineState H) : PipelineState H × List String :=
  match ps.queue with
  | [] => (ps, [])
  | f :: rest =>
    if ps.tts_playing = true then ({ ps with queue := rest }, [])
    else
      let v := accept_waveform infer cfg ps.vad f
      let r := drain_loop recognize 0 v.segments []
      ({ ps with queue := rest, vad := { v with segments := r.1 } }, r.2)

/-- The `_play_and_clear` closure of `_handle_command`
(voice_assistant_fast.py lines 251-258, voice_assistant_faster.py lines
238-245): after playback finishes (`sd.wait()`) and the 0.2 s guard delay, the
suppression event is cleared.  Nothing else is touched: the frame channel is
not purged and neither the segmenter nor the resampler is reset. -/
def play_and_clear (ps : PipelineState H) : PipelineState H :=
  { ps with tts_playing := false }

/-!
Basic facts about `update_state`: its four branches and the fields it never
touches.
-/

theorem update_state_speech (cfg : VADConfig) (w : List ℚ) (p : ℚ) (s : VADState H)
    (hp : cfg.threshold ≤ p) :
    update_state cfg w p s =
      { s with silence_samples := 0, speech_buf := s.speech_buf ++ w, in_speech := true } := by
  simp [update_state, hp]

theorem update_state_silence_idle (cfg : VADConfig) (w : List ℚ) (p : ℚ) (s : VADState H)
    (hp : ¬ cfg.threshold ≤ p) (hs : s.in_speech = false) :
    update_state cfg w p s = s := by
  simp [update_state, hp, hs]

theorem update_state_silence_short (cfg : VADConfig) (w : List ℚ) (p : ℚ) (s : VADState H)
    (hp : ¬ cfg.threshold ≤ p) (hs : s.in_speech = true)
    (hsil : ¬ cfg.min_silence_samples ≤ s.silence_samples + WINDOW_SIZE) :
    update_state cfg w p s =
      { s with speech_buf := s.speech_buf ++ w
               silence_samples := s.silence_samples + WINDOW_SIZE } := by
  simp [update_state, hp, hs, hsil]

theorem update_state_finalize (cfg : VADConfig) (w : List ℚ) (p : ℚ) (s : VADState H)
    (hp : ¬ cfg.threshold ≤ p) (hs : s.in_speech = true)
    (hsil : cfg.min_silence_samples ≤ s.silence_samples + WINDOW_SIZE) :
    update_state cfg w p s =
      { s with speech_buf := []
               segments := s.segments ++
                 (if cfg.min_speech_samples ≤ (s.speech_buf ++ w).length
                  then [s.speech_buf ++ w] else [])
               in_speech := false
               silence_samples := 0 } := by
  simp [update_state, hp, hs, hsil]

theorem update_state_cases (cfg : VADConfig) (w : List ℚ) (p : ℚ) (s : VADState H)
    (motive : VADState H → Prop)
    (h1 : motive { s with silence_samples := 0, speech_buf := s.speech_buf ++ w,
                          in_speech := true })
    (h2 : motive { s with speech_buf := []
                          segments := s.segments ++
                            (if cfg.min_speech_samples ≤ (s.speech_buf ++ w).length
                             then [s.speech_buf ++ w] else [])
                          in_speech := false
                          silence_samples := 0 })
    (h3 : motive { s with speech_buf := s.speech_buf ++ w
                          silence_samples := s.silence_samples + WINDOW_SIZE })
    (h4 : motive s) :
    motive (update_state cfg w p s) := by
  by_cases hp : cfg.threshold ≤ p
  · rw [update_state_speech cfg w p s hp]; exact h1
  · cases hs : s.in_speech with
    | true =>
      by_cases hsil : cfg.min_silence_samples ≤ s.silence_samples + WINDOW_SIZE
      · rw [update_state_finalize cfg w p s hp hs hsil]; exact h2
      · rw [update_state_silence_short cfg w p s hp hs hsil]; exact h3
    | false =>
      rw [update_state_silence_idle cfg w p s hp hs]; exact h4

@[simp] theorem update_state_buffer (cfg : VADConfig) (w : List ℚ) (p : ℚ) (s : VADState H) :
    (update_state cfg w p s).buffer = s.buffer :=
  update_state_cases cfg w p s (fun t => t.buffer = s.buffer) rfl rfl rfl rfl

@[simp] theorem update_state_h (cfg : VADConfig) (w : List ℚ) (p : ℚ) (s : VADState H) :
    (update_state cfg w p s).h = s.h :=
  update_state_cases cfg w p s (fun t => t.h = s.h) rfl rfl rfl rfl

/-!
Facts about `_process_buffer`: the loop consumes whole windows until fewer
than `WINDOW_SIZE` samples remain; in particular the residual buffer length is
the length of the input buffer modulo `WINDOW_SIZE`.
-/

theorem process_buffer_aux_step (infer : H → List ℚ → ℚ × H) (cfg : VADConfig)
    (fuel : ℕ) (s : VADState H) (hf : 0 < fuel) (hlen : WINDOW_SIZE ≤ s.buffer.length) :
    process_buffer_aux infer cfg fuel s =
      process_buffer_aux infer cfg (fuel - 1)
        (update_state cfg (s.buffer.take WINDOW_SIZE) (infer s.h (s.buffer.take WINDOW_SIZE)).1
          { s with buffer := s.buffer.drop WINDOW_SIZE
                   h := (infer s.h (s.buffer.take WINDOW_SIZE)).2 }) := by
  cases fuel with
  | zero => exact absurd hf (by omega)
  | succ n => simp [process_buffer_aux, hlen]

theorem process_buffer_aux_done (infer : H → List ℚ → ℚ × H) (cfg : VADConfig)
    (fuel : ℕ) (s : VADState H) (hlen : ¬ WINDOW_SIZE ≤ s.buffer.length) :
    process_buffer_aux infer cfg fuel s = s := by
  cases fuel with
  | zero => rfl
  | succ n => simp [process_buffer_aux, hlen]

theorem process_buffer_aux_buffer_length (infer : H → List ℚ → ℚ × H) (cfg : VADConfig) :
    ∀ (fuel : ℕ) (s : VADState H), s.buffer.length ≤ fuel →
      (process_buffer_aux infer cfg fuel s).buffer.length = s.buffer.length % WINDOW_SIZE := by
  intro fuel
  induction fuel with
  | zero =>
    intro s hs
    have h0 : s.buffer.length = 0 := by omega
    simp [process_buffer_aux, h0]
  | succ n ih =>
    intro s hs
    by_cases hlen : WINDOW_SIZE ≤ s.buffer.length
    · rw [process_buffer_aux_step infer cfg (n+1) s (by omega) hlen]
      have hlen' :
          (update_state cfg (s.buffer.take WINDOW_SIZE) (infer s.h (s.buffer.take WINDOW_SIZE)).1
            { s with buffer := s.buffer.drop WINDOW_SIZE
                     h := (infer s.h (s.buffer.take WINDOW_SIZE)).2 }).buffer.length
            = s.buffer.length - WINDOW_SIZE := by
        simp [List.length_drop]
      rw [show n + 1 - 1 = n by omega, ih _ (by rw [hlen']; simp [WINDOW_SIZE] at hlen ⊢; omega),
        hlen']
      simp only [WINDOW_SIZE] at hlen ⊢
      omega
    · rw [process_buffer_aux_done infer cfg _ s hlen]
      simp only [WINDOW_SIZE] at hlen ⊢
      omega

theorem process_buffer_buffer_length (infer : H → List ℚ → ℚ × H) (cfg : VADConfig)
    (s : VADState H) :
    (process_buffer infer cfg s).buffer.length = s.buffer.length % WINDOW_SIZE :=
  process_buffer_aux_buffer_length infer cfg s.buffer.length s le_rfl

/-- After `flush_process` the accumulation buffer is fully consumed: either it
was empty, or it was padded to a whole number of windows and the processing
loop drained it. -/
theorem flush_process_buffer (infer : H → List ℚ → ℚ × H) (cfg : VADConfig)
    (s : VADState H) : (flush_process infer cfg s).buffer = [] := by
  unfold flush_process
  by_cases h0 : 0 < s.buffer.length
  · rw [if_pos h0]
    dsimp only
    by_cases hpad : WINDOW_SIZE - s.buffer.length % WINDOW_SIZE ≠ WINDOW_SIZE
    · rw [if_pos hpad]
      refine List.length_eq_zero.mp ?_
      rw [process_buffer_buffer_length]
      dsimp only
      simp only [List.length_append, List.length_replicate]
      simp only [WINDOW_SIZE] at hpad ⊢
      omega
    · rw [if_neg hpad]
      refine List.length_eq_zero.mp ?_
      rw [process_buffer_buffer_length]
      simp only [WINDOW_SIZE] at hpad ⊢
      omega
  · rw [if_neg h0]
    exact List.length_eq_zero.mp (by omega)

/-!
Closed forms for `run_windows` on homogeneous runs of windows, mirroring the
scenarios of the spec's testable properties.
-/

@[simp] theorem run_windows_nil (cfg : VADConfig) (s : VADState H) :
    run_windows cfg [] s = s := rfl

@[simp] theorem run_windows_cons (cfg : VADConfig) (wp : List ℚ × ℚ)
    (ws : List (List ℚ × ℚ)) (s : VADState H) :
    run_windows cfg (wp :: ws) s = run_windows cfg ws (update_state cfg wp.1 wp.2 s) := rfl

theorem run_windows_append (cfg : VADConfig) (xs ys : List (List ℚ × ℚ)) (s : VADState H) :
    run_windows cfg (xs ++ ys) s = run_windows cfg ys (run_windows cfg xs s) :=
  List.foldl_append _ _ xs ys

theorem length_flatten_replicate (n : ℕ) (w : List ℚ) :
    (List.replicate n w).flatten.length = n * w.length := by
  simp [List.length_flatten, List.map_replicate, List.sum_replicate, smul_eq_mul]

theorem flatten_replicate_succ (m : ℕ) (w : List ℚ) :
    (List.replicate (m + 1) w).flatten = w ++ (List.replicate m w).flatten := by
  rw [List.replicate_succ]; simp

/-- A run of `n ≥ 1` above-threshold windows puts the machine in Speech, with
all the windows appended to the speech accumulator and the silence counter
reset. -/
theorem run_speech (cfg : VADConfig) (w : List ℚ) (p : ℚ) (hp : cfg.threshold ≤ p) :
    ∀ (n : ℕ) (s : VADState H), 1 ≤ n →
      run_windows cfg (List.replicate n (w, p)) s =
        { s with speech_buf := s.speech_buf ++ (List.replicate n w).flatten
                 in_speech := true
                 silence_samples := 0 } := by
  intro n
  induction n with
  | zero => intro s hn; exact absurd hn (by omega)
  | succ m ih =>
    intro s _
    obtain ⟨h0, buf, sb, seg, isp, sil⟩ := s
    rw [List.replicate_succ, run_windows_cons, update_state_speech cfg w p _ hp]
    cases Nat.eq_zero_or_pos m with
    | inl hz => subst hz; simp
    | inr hm =>
      rw [ih _ hm]
      simp [flatten_replicate_succ, List.append_assoc]

/-- A run of `k` below-threshold windows from Speech with silence counter `c`,
short of completing the silence run, appends the windows to the speech
accumulator and advances the counter by `k * WINDOW_SIZE`. -/
theorem run_silence_short (cfg : VADConfig) (w : List ℚ) (p : ℚ)
    (hp : ¬ cfg.threshold ≤ p) :
    ∀ (k : ℕ) (s : VADState H), s.in_speech = true →
      s.silence_samples + k * WINDOW_SIZE < cfg.min_silence_samples →
      run_windows cfg (List.replicate k (w, p)) s =
        { s with speech_buf := s.speech_buf ++ (List.replicate k w).flatten
                 silence_samples := s.silence_samples + k * WINDOW_SIZE } := by
  intro k
  induction k with
  | zero =>
    intro s hsp hlt
    obtain ⟨h0, buf, sb, seg, isp, sil⟩ := s
    simp
  | succ m ih =>
    intro s hsp hlt
    obtain ⟨h0, buf, sb, seg, isp, sil⟩ := s
    simp only at hsp hlt
    subst hsp
    rw [List.replicate_succ, run_windows_cons,
      update_state_silence_short cfg w p _ hp rfl
        (by simp only [WINDOW_SIZE] at hlt ⊢; omega)]
    rw [ih _ rfl (by simp only [WINDOW_SIZE] at hlt ⊢; omega)]
    simp only [VADState.mk.injEq, true_and, and_true]
    refine ⟨by simp [flatten_replicate_succ, List.append_assoc], by simp only [WINDOW_SIZE]; omega⟩

/-- A run of below-threshold windows whose `(k+1)`-st window completes the
silence run: the machine finalizes, enqueuing the accumulated speech buffer
(including all `k+1` appended silence windows) iff its total length reaches
`min_speech_samples`, and returns to Silence. -/
theorem run_silence_finalize (cfg : VADConfig) (w : List ℚ) (p : ℚ)
    (hp : ¬ cfg.threshold ≤ p) (k : ℕ) (s : VADState H)
    (hsp : s.in_speech = true) (hs0 : s.silence_samples = 0)
    (hlt : k * WINDOW_SIZE < cfg.min_silence_samples)
    (hge : cfg.min_silence_samples ≤ (k + 1) * WINDOW_SIZE) :
    run_windows cfg (List.replicate (k + 1) (w, p)) s =
      { s with
        speech_buf := []
        segments := s.segments ++
          (if cfg.min_speech_samples ≤ (s.speech_buf ++ (List.replicate (k+1) w).flatten).length
           then [s.speech_buf ++ (List.replicate (k+1) w).flatten] else [])
        in_speech := false
        silence_samples := 0 } := by
  obtain ⟨h0, buf, sb, seg, isp, sil⟩ := s
  simp only at hsp hs0
  subst hsp; subst hs0
  rw [List.replicate_succ', run_windows_append,
    run_silence_short cfg w p hp k _ rfl (by simpa using hlt)]
  have hstep := update_state_finalize cfg w p
    (⟨h0, buf, sb ++ (List.replicate k w).flatten, seg, true, 0 + k * WINDOW_SIZE⟩ : VADState H)
    hp rfl (by simp only [WINDOW_SIZE] at hge ⊢; omega)
  rw [show (run_windows cfg [(w, p)]
      (⟨h0, buf, sb ++ (List.replicate k w).flatten, seg, true, 0 + k * WINDOW_SIZE⟩ : VADState H))
      = update_state cfg w p
        (⟨h0, buf, sb ++ (List.replicate k w).flatten, seg, true, 0 + k * WINDOW_SIZE⟩ : VADState H)
      from rfl, hstep]
  simp [List.replicate_succ', List.append_assoc]

/-- Below-threshold windows arriving in Silence are no-ops. -/
theorem run_silence_idle (cfg : VADConfig) (w : List ℚ) (p : ℚ)
    (hp : ¬ cfg.threshold ≤ p) :
    ∀ (k : ℕ) (s : VADState H), s.in_speech = false →
      run_windows cfg (List.replicate k (w, p)) s = s := by
  intro k
  induction k with
  | zero => intro s _; rfl
  | succ m ih =>
    intro s hs
    rw [List.replicate_succ, run_windows_cons, update_state_silence_idle cfg w p s hp hs]
    exact ih s hs

/-- Any sequence of below-threshold windows leaves a Silence-state machine
completely unchanged. -/
theorem run_below_id (cfg : VADConfig) (ws : List (List ℚ × ℚ))
    (hb : ∀ wp ∈ ws, wp.2 < cfg.threshold) :
    ∀ s : VADState H, s.in_speech = false → run_windows cfg ws s = s := by
  induction ws with
  | nil => intro s _; rfl
  | cons a t ih =>
    intro s hs
    rw [run_windows_cons, update_state_silence_idle cfg a.1 a.2 s
      (not_le.mpr (hb a (by simp))) hs]
    exact ih (fun wp hwp => hb wp (by simp [hwp])) s hs

/-- Invariant of the silence-run counter: whenever the machine driven from the
initial state is in Speech, `silence_samples` is `t * WINDOW_SIZE` for the
length `t` of the maximal unbroken run of below-threshold windows at the end
of the processed trace. -/
theorem silence_counter_inv (cfg : VADConfig) (h0 : H) :
    ∀ ws : List (List ℚ × ℚ),
      (run_windows cfg ws (init_state h0)).in_speech = true →
      ∃ t, t ≤ ws.length ∧
        (run_windows cfg ws (init_state h0)).silence_samples = t * WINDOW_SIZE ∧
        ∀ wp ∈ ws.drop (ws.length - t), ¬ cfg.threshold ≤ wp.2 := by
  intro ws
  induction ws using List.reverseRecOn with
  | nil => intro hsp; exact absurd hsp (by simp [init_state])
  | append_singleton xs x ih =>
    intro hsp
    rw [run_windows_append] at hsp ⊢
    set s := run_windows cfg xs (init_state h0) with hs
    have hsingle : run_windows cfg [x] s = update_state cfg x.1 x.2 s := rfl
    rw [hsingle] at hsp ⊢
    by_cases hp : cfg.threshold ≤ x.2
    · refine ⟨0, by omega, ?_, ?_⟩
      · rw [update_state_speech cfg x.1 x.2 s hp]; simp
      · intro wp hwp
        rw [Nat.sub_zero, List.drop_length] at hwp
        exact absurd hwp (List.not_mem_nil wp)
    · cases hspeech : s.in_speech with
      | false =>
        rw [update_state_silence_idle cfg x.1 x.2 s hp hspeech] at hsp
        exact absurd hsp (by rw [hspeech]; simp)
      | true =>
        by_cases hsil : cfg.min_silence_samples ≤ s.silence_samples + WINDOW_SIZE
        · rw [update_state_finalize cfg x.1 x.2 s hp hspeech hsil] at hsp
          exact absurd hsp (by simp)
        · obtain ⟨t, ht, hcnt, hbelow⟩ := ih hspeech
          refine ⟨t + 1, by simp only [List.length_append, List.length_cons,
            List.length_nil]; omega, ?_, ?_⟩
          · rw [update_state_silence_short cfg x.1 x.2 s hp hspeech hsil]
            show s.silence_samples + WINDOW_SIZE = (t + 1) * WINDOW_SIZE
            rw [hcnt]; ring
          · intro wp hwp
            have hlen : (xs ++ [x]).length - (t + 1) = xs.length - t := by
              simp only [List.length_append, List.length_cons, List.length_nil]; omega
            rw [hlen, List.drop_append_of_le_length (by omega)] at hwp
            rcases List.mem_append.mp hwp with hin | hin
            · exact hbelow wp hin
            · rw [List.mem_singleton.mp hin]; exact hp

/-!
Characterisations of the pipeline helpers.
-/

/-- The worker's per-frame drain loop pops exactly the first
`min 2 (number of queued segments)` segments, in FIFO order, and pushes (in
that order) the transcript of each popped segment that is non-empty and
transcribes to non-empty text; later segments stay queued. -/
theorem drain_loop_stops (recognize : List ℚ → String) (t : List (List ℚ))
    (out : List String) : drain_loop recognize 2 t out = (t, out) := by
  cases t <;> simp [drain_loop]

theorem drain_loop_spec (recognize : List ℚ → String) (segs : List (List ℚ)) :
    (drain_loop recognize 0 segs []).1 = segs.drop 2 ∧
    (drain_loop recognize 0 segs []).2 =
      ((segs.take 2).filter
        (fun sg => decide (0 < sg.length ∧ recognize sg ≠ ""))).map recognize := by
  match segs with
  | [] => simp [drain_loop]
  | [a] =>
    by_cases h : 0 < a.length ∧ recognize a ≠ "" <;>
      simp [drain_loop, h]
  | a :: b :: t =>
    by_cases h1 : 0 < a.length ∧ recognize a ≠ "" <;>
      by_cases h2 : 0 < b.length ∧ recognize b ≠ "" <;>
        simp [drain_loop, drain_loop_stops, h1, h2]

theorem enqueue_frames_full (cap : ℕ) :
    ∀ (fs : List (List ℚ)) (q : List (List ℚ)), fs ≠ [] →
      q.length + fs.length = cap + 1 →
      enqueue_frames cap q fs = (q ++ fs.dropLast, 1) := by
  intro fs
  induction fs with
  | nil => intro q hne _; exact absurd rfl hne
  | cons f fs ih =>
    intro q _ hlen
    cases fs with
    | nil =>
      have hq : q.length = cap := by
        simp only [List.length_cons, List.length_nil] at hlen; omega
      simp [enqueue_frames, put_nowait, hq]
    | cons g gs =>
      have hq : q.length < cap := by
        simp only [List.length_cons] at hlen; omega
      have hrec := ih (q ++ [f]) (by simp) (by
        simp only [List.length_append, List.length_cons, List.length_nil] at hlen ⊢; omega)
      have hput : put_nowait cap q f = (q ++ [f], 0) := by simp [put_nowait, hq]
      show ((enqueue_frames cap (put_nowait cap q f).1 (g :: gs)).1,
        (put_nowait cap q f).2 + (enqueue_frames cap (put_nowait cap q f).1 (g :: gs)).2) =
        (q ++ (f :: g :: gs).dropLast, 1)
      rw [hput]
      dsimp only
      rw [hrec]
      simp [List.append_assoc, List.dropLast]

/-!
Concrete instances used by counterexamples and witnesses.
-/

/-- A window of `WINDOW_SIZE` zero samples. -/
def zero_window : List ℚ := List.replicate WINDOW_SIZE 0

theorem zero_window_length : zero_window.length = WINDOW_SIZE := by
  simp [zero_window]

/-- The configuration of the spec's concrete scenario:
`sample_rate=16000, threshold=0.5, min_silence_duration=0.5 (8000 samples),
min_speech_duration=0.25 (4000 samples)`. -/
def c2cfg : VADConfig := ⟨16000, 1/2, 8000, 4000⟩

theorem c2cfg_eq_mk_config : mk_config 16000 (1/2) (1/2) (1/4) = c2cfg := by
  unfold mk_config c2cfg
  have h1 : ⌊(1:ℚ)/2 * (16000:ℕ)⌋ = 8000 := by norm_num
  have h2 : ⌊(1:ℚ)/4 * (16000:ℕ)⌋ = 4000 := by norm_num
  rw [h1, h2]
  rfl

/-- A classifier oracle with trivial recurrent state that labels everything
silence. -/
def inferU : Unit → List ℚ → ℚ × Unit := fun u _ => (0, u)

/-- A classifier oracle whose recurrent state counts the windows seen so far
and whose output depends on it: the very first window of the stream is speech
(probability 1), every later one is silence (probability 0).  It witnesses
that the recurrent state is observable through subsequent probabilities. -/
def inferCount : ℕ → List ℚ → ℚ × ℕ := fun n _ => (if n = 0 then 1 else 0, n + 1)

/-- Configuration for the flush/reset scenario (threshold 0.5,
`min_silence_samples` 8000, `min_speech_samples` 400). -/
def c6cfg : VADConfig := ⟨16000, 1/2, 8000, 400⟩

/-- A recognizer oracle returning a fixed non-empty transcript. -/
def recognize_const : List ℚ → String := fun _ => "text"

/-- A segmenter state with three completed segments queued. -/
def c7_vad : VADState Unit := ⟨(), [], [], [[0], [0], [0]], false, 0⟩

/-- A pipeline state holding one queued frame and the three-segment segmenter
state, with suppression not set. -/
def c7_ps : PipelineState Unit := ⟨[[]], false, c7_vad⟩

/-- A pipeline state at the end of playback: suppression set, one frame left
in the channel from the playback era, segmenter mid-utterance. -/
def c9_ps : PipelineState Unit := ⟨[[0]], true, ⟨(), [], zero_window, [], true, 0⟩⟩

/-- Evaluating `accept_waveform` on an empty buffer and exactly one window:
the classifier runs once on the window and `_update_state` is applied. -/
theorem accept_one_window (infer : H → List ℚ → ℚ × H) (cfg : VADConfig)
    (h0 : H) (sb : List ℚ) (seg : List (List ℚ)) (isp : Bool) (sil : ℕ)
    (w : List ℚ) (hw : w.length = WINDOW_SIZE) :
    accept_waveform infer cfg (⟨h0, [], sb, seg, isp, sil⟩ : VADState H) w =
      update_state cfg w (infer h0 w).1 (⟨(infer h0 w).2, [], sb, seg, isp, sil⟩ : VADState H) := by
  unfold accept_waveform process_buffer
  simp only [List.nil_append]
  rw [process_buffer_aux_step infer cfg w.length (⟨h0, w, sb, seg, isp, sil⟩ : VADState H)
    (by rw [hw]; norm_num [WINDOW_SIZE]) hw.ge]
  have htake : w.take WINDOW_SIZE = w := by rw [← hw]; exact List.take_length w
  have hdrop : w.drop WINDOW_SIZE = [] := by rw [← hw]; exact List.drop_length w
  rw [show (⟨h0, w, sb, seg, isp, sil⟩ : VADState H).buffer = w from rfl]
  rw [htake, hdrop]
  rw [process_buffer_aux_done infer cfg _ _ (by simp [WINDOW_SIZE])]

/-!
Concrete evaluation of the flush/reset scenario: one speech window, one
silence window, then `flush`, then one more window, under the
window-counting classifier `inferCount`.
-/

theorem c6_state1 :
    accept_waveform inferCount c6cfg (init_state 0) zero_window =
      (⟨1, [], zero_window, [], true, 0⟩ : VADState ℕ) := by
  rw [show init_state (0:ℕ) = (⟨0, [], [], [], false, 0⟩ : VADState ℕ) from rfl]
  rw [accept_one_window inferCount c6cfg 0 [] [] false 0 zero_window zero_window_length]
  rw [show inferCount 0 zero_window = ((1:ℚ), 1) from by simp [inferCount]]
  rw [update_state_speech c6cfg zero_window 1 _ (by norm_num [c6cfg])]
  simp

theorem c6_state2 :
    accept_waveform inferCount c6cfg (⟨1, [], zero_window, [], true, 0⟩ : VADState ℕ)
      zero_window =
      (⟨2, [], zero_window ++ zero_window, [], true, 512⟩ : VADState ℕ) := by
  rw [accept_one_window inferCount c6cfg 1 zero_window [] true 0 zero_window
    zero_window_length]
  rw [show inferCount 1 zero_window = ((0:ℚ), 2) from by simp [inferCount]]
  rw [update_state_silence_short c6cfg zero_window 0 _ (by norm_num [c6cfg]) rfl
    (by show ¬ (8000 : ℕ) ≤ 0 + 512; omega)]
  rfl

theorem c6_flushed :
    flush inferCount c6cfg (⟨2, [], zero_window ++ zero_window, [], true, 512⟩ : VADState ℕ) =
      (⟨2, [], [], [zero_window ++ zero_window], false, 512⟩ : VADState ℕ) := by
  unfold flush flush_process
  rw [if_neg (by simp)]
  dsimp only
  rw [if_pos (by
    refine ⟨rfl, ?_⟩
    show (400 : ℕ) ≤ (zero_window ++ zero_window).length
    rw [List.length_append, zero_window_length]
    norm_num [WINDOW_SIZE])]
  rfl

theorem c6_after_flush :
    accept_waveform inferCount c6cfg
      (⟨2, [], [], [zero_window ++ zero_window], false, 512⟩ : VADState ℕ) zero_window =
      (⟨3, [], [], [zero_window ++ zero_window], false, 512⟩ : VADState ℕ) := by
  rw [accept_one_window inferCount c6cfg 2 [] [zero_window ++ zero_window] false 512
    zero_window zero_window_length]
  rw [show inferCount 2 zero_window = ((0:ℚ), 3) from by simp [inferCount]]
  rw [update_state_silence_idle c6cfg zero_window 0 _ (by norm_num [c6cfg]) rfl]

/-!
Concrete evaluation of the spec's scenario: 10 windows of probability 0.9,
then `i` windows of probability 0.1, from the initial state.
-/

/-- The spec's concrete scenario after 10 above-threshold windows and `i`
below-threshold windows. -/
def c2_run (i : ℕ) : VADState Unit :=
  run_windows c2cfg
    (List.replicate 10 (zero_window, 9/10) ++ List.replicate i (zero_window, 1/10))
    (init_state ())

theorem c2_run_le15 (i : ℕ) (hi : i ≤ 15) :
    (c2_run i).segments = [] ∧ (c2_run i).in_speech = true := by
  unfold c2_run
  rw [run_windows_append, run_speech c2cfg zero_window (9/10) (by norm_num [c2cfg]) 10 _
    (by omega)]
  rw [run_silence_short c2cfg zero_window (1/10) (by norm_num [c2cfg]) i _ rfl
    (by show 0 + i * 512 < 8000; omega)]
  exact ⟨rfl, rfl⟩

theorem c2_run_16 :
    c2_run 16 =
      (⟨(), [], [],
        [(List.replicate 10 zero_window).flatten ++ (List.replicate 16 zero_window).flatten],
        false, 0⟩ : VADState Unit) := by
  unfold c2_run
  rw [run_windows_append, run_speech c2cfg zero_window (9/10) (by norm_num [c2cfg]) 10 _
    (by omega)]
  rw [show (16:ℕ) = 15 + 1 from rfl]
  rw [run_silence_finalize c2cfg zero_window (1/10) (by norm_num [c2cfg]) 15 _ rfl rfl
    (by show 15 * 512 < 8000; omega) (by show (8000:ℕ) ≤ (15 + 1) * 512; omega)]
  rw [if_pos (by
    show (4000:ℕ) ≤ ((((init_state ()).speech_buf ++ (List.replicate 10 zero_window).flatten)
      ++ (List.replicate (15+1) zero_window).flatten)).length
    rw [show (init_state ()).speech_buf = [] from rfl, List.nil_append, List.length_append,
      length_flatten_replicate, length_flatten_replicate, zero_window_length]
    norm_num [WINDOW_SIZE])]
  simp [init_state]

theorem c2_run_20 : c2_run 20 = c2_run 16 := by
  have hsplit :
      (List.replicate 10 ((zero_window, (9:ℚ)/10)) ++
        List.replicate 20 ((zero_window, (1:ℚ)/10))) =
      (List.replicate 10 ((zero_window, (9:ℚ)/10)) ++
        List.replicate 16 ((zero_window, (1:ℚ)/10))) ++
        List.replicate 4 ((zero_window, (1:ℚ)/10)) := by
    rw [List.append_assoc, ← List.replicate_add]
  show run_windows c2cfg _ (init_state ()) = c2_run 16
  rw [hsplit, run_windows_append]
  rw [show run_windows c2cfg
      (List.replicate 10 ((zero_window, (9:ℚ)/10)) ++
        List.replicate 16 ((zero_window, (1:ℚ)/10))) (init_state ()) = c2_run 16 from rfl]
  rw [c2_run_16]
  exact run_silence_idle c2cfg zero_window (1/10) (by norm_num [c2cfg]) 4 _ rfl

/-- A small configuration (threshold 1, one-window silence run, one-sample
speech minimum) used to instantiate hypotheses in witnesses. -/
def probe_cfg : VADConfig := ⟨16000, 1, 512, 1⟩

/-!
The claims.
-/

/-- C4: for every sequence of windows all of whose classifier probabilities
are strictly below the threshold, the segmenter never enters the Speech state
(`is_speech_detected` is false after every window) and emits zero segments
(`empty` stays true). -/
theorem claim_c4 (cfg : VADConfig) (h0 : H) (ws : List (List ℚ × ℚ))
    (hb : ∀ wp ∈ ws, wp.2 < cfg.threshold) (i : ℕ) :
    is_speech_detected (run_windows cfg (ws.take i) (init_state h0)) = false ∧
    empty (run_windows cfg (ws.take i) (init_state h0)) = true := by
  rw [run_below_id cfg (ws.take i) (fun wp hwp => hb wp (List.mem_of_mem_take hwp))
    (init_state h0) rfl]
  exact ⟨rfl, rfl⟩

theorem claim_c4_witness :
    is_speech_detected
      (run_windows probe_cfg ([(([] : List ℚ), (0:ℚ))].take 1) (init_state ())) = false ∧
    empty (run_windows probe_cfg ([(([] : List ℚ), (0:ℚ))].take 1) (init_state ())) = true :=
  claim_c4 probe_cfg () [([], 0)] (by simp [probe_cfg]) 1

/-- C5: `flush()` zero-pads a buffered partial window to `window_size` and
processes it (fifth conjunct), fully consumes the buffer (third conjunct),
then — whatever the silence-run length — enqueues a still-open speech buffer
iff its length reaches `min_speech_samples` and discards a shorter one
(fourth conjunct), leaving the state in Silence with the accumulator cleared
(first two conjuncts); on an empty buffer with no open speech run nothing is
enqueued (last conjunct), and the function is total, so no error is raised. -/
theorem claim_c5 (infer : H → List ℚ → ℚ × H) (cfg : VADConfig) (s : VADState H) :
    (flush infer cfg s).in_speech = false ∧
    (flush infer cfg s).speech_buf = [] ∧
    (flush infer cfg s).buffer = [] ∧
    (flush infer cfg s).segments = (flush_process infer cfg s).segments ++
      (if (flush_process infer cfg s).in_speech = true ∧
          cfg.min_speech_samples ≤ (flush_process infer cfg s).speech_buf.length
       then [(flush_process infer cfg s).speech_buf] else []) ∧
    (s.buffer.length % WINDOW_SIZE ≠ 0 →
      flush_process infer cfg s = process_buffer infer cfg
        { s with buffer := s.buffer ++
            List.replicate (WINDOW_SIZE - s.buffer.length % WINDOW_SIZE) 0 }) ∧
    (s.buffer = [] → s.in_speech = false → (flush infer cfg s).segments = s.segments) := by
  refine ⟨rfl, rfl, flush_process_buffer infer cfg s, rfl, ?_, ?_⟩
  · intro hmod
    unfold flush_process
    rw [if_pos (by simp only [WINDOW_SIZE] at hmod ⊢; omega)]
    dsimp only
    rw [if_pos (by simp only [WINDOW_SIZE] at hmod ⊢; omega)]
  · intro hbuf hsp
    have hfp : flush_process infer cfg s = s := by
      unfold flush_process
      rw [if_neg (by rw [hbuf]; simp)]
    rw [show (flush infer cfg s).segments = (flush_process infer cfg s).segments ++
      (if (flush_process infer cfg s).in_speech = true ∧
          cfg.min_speech_samples ≤ (flush_process infer cfg s).speech_buf.length
       then [(flush_process infer cfg s).speech_buf] else []) from rfl, hfp, hsp]
    simp

theorem claim_c5_witness :
    (flush inferU c2cfg (init_state ())).in_speech = false ∧
    (flush inferU c2cfg (init_state ())).speech_buf = [] ∧
    (flush inferU c2cfg (init_state ())).buffer = [] ∧
    (flush inferU c2cfg (init_state ())).segments = (init_state ()).segments := by
  have h := claim_c5 inferU c2cfg (init_state ())
  exact ⟨h.1, h.2.1, h.2.2.1, h.2.2.2.2.2 rfl rfl⟩

/-- C6 (amended): `flush()` resets the accumulation buffer, the speech buffer
and the state flag to their initial values, but merely carries over — rather
than reinitialises — the recurrent hidden/cell state and the silence-run
counter left by processing; a flushed segmenter therefore need not behave
like a freshly constructed one. -/
theorem claim_c6_amended (infer : H → List ℚ → ℚ × H) (cfg : VADConfig) (s : VADState H) :
    (flush infer cfg s).buffer = [] ∧
    (flush infer cfg s).speech_buf = [] ∧
    (flush infer cfg s).in_speech = false ∧
    (flush infer cfg s).h = (flush_process infer cfg s).h ∧
    (flush infer cfg s).silence_samples = (flush_process infer cfg s).silence_samples :=
  ⟨flush_process_buffer infer cfg s, rfl, rfl, rfl, rfl⟩

/-- C6 counterexample: after one speech window and one silence window,
`flush()` leaves the recurrent state at 2 (not the initial 0) and the
silence-run counter at 512 (not 0), and the subsequent observable behaviour
differs from a fresh instance: the same window leaves the flushed instance in
Silence but puts a fresh instance in Speech. -/
theorem claim_c6_counterexample :
    (flush inferCount c6cfg
        (accept_waveform inferCount c6cfg
          (accept_waveform inferCount c6cfg (init_state 0) zero_window)
          zero_window)).h ≠ (init_state (0:ℕ)).h ∧
    (flush inferCount c6cfg
        (accept_waveform inferCount c6cfg
          (accept_waveform inferCount c6cfg (init_state 0) zero_window)
          zero_window)).silence_samples ≠ (init_state (0:ℕ)).silence_samples ∧
    is_speech_detected
      (accept_waveform inferCount c6cfg
        (flush inferCount c6cfg
          (accept_waveform inferCount c6cfg
            (accept_waveform inferCount c6cfg (init_state 0) zero_window)
            zero_window))
        zero_window) = false ∧
    is_speech_detected (accept_waveform inferCount c6cfg (init_state 0) zero_window) = true := by
  rw [c6_state1, c6_state2, c6_flushed, c6_after_flush]
  exact ⟨by decide, by decide, rfl, rfl⟩

/-- C8: the capture-path enqueue is non-blocking and exception-free (it is a
total function); enqueuing `K+1` frames into an empty channel of capacity `K`
leaves exactly the first `K` frames available to the worker and drops exactly
one frame. -/
theorem claim_c8 (K : ℕ) (fs : List (List ℚ)) (hlen : fs.length = K + 1) :
    (enqueue_frames K [] fs).1 = fs.take K ∧
    (enqueue_frames K [] fs).1.length = K ∧
    (enqueue_frames K [] fs).2 = 1 := by
  have hne : fs ≠ [] := by
    intro h; rw [h] at hlen; simp at hlen
  have h := enqueue_frames_full K fs [] hne (by simpa using hlen)
  rw [h]
  have hdl : fs.dropLast = fs.take K := by
    rw [List.dropLast_eq_take, hlen]; simp
  refine ⟨by simp [hdl], ?_, rfl⟩
  simp [hdl, List.length_take, hlen]

theorem claim_c8_witness :
    (enqueue_frames 2 [] [[1], [2], [3]]).1 = [[1], [2], [3]].take 2 ∧
    (enqueue_frames 2 [] [[1], [2], [3]]).1.length = 2 ∧
    (enqueue_frames 2 [] [[1], [2], [3]]).2 = 1 :=
  claim_c8 2 [[1], [2], [3]] rfl

/-- C10: when no completed segments are queued, `get_speech_segment` returns
`none` without raising and leaves the whole segmenter state unchanged, and
`pop` on the empty segment queue is a no-op raising no error (both are total
functions). -/
theorem claim_c10 (s : VADState H) (hemp : empty s = true) :
    get_speech_segment s = (none, s) ∧ pop s = s := by
  have hseg : s.segments = [] := by
    refine List.length_eq_zero.mp ?_
    simpa [empty] using hemp
  constructor
  · unfold get_speech_segment front_samples
    rw [hseg]
    rfl
  · unfold pop
    rw [hseg]

theorem claim_c10_witness :
    empty (init_state ()) = true ∧
    get_speech_segment (init_state ()) = (none, init_state ()) ∧
    pop (init_state ()) = init_state () :=
  ⟨rfl, (claim_c10 (init_state ()) rfl).1, (claim_c10 (init_state ()) rfl).2⟩

/-- C1 (amended): a speech run of `n ≥ 1` above-threshold windows followed by
the minimal silence run of `K` below-threshold windows reaching
`min_silence_samples` leaves zero emitted segments iff the speech samples
PLUS the `K` appended silence windows total fewer than `min_speech_samples`
— the discard test of `_update_state` measures the whole accumulated buffer,
including the trailing silence windows, not the above-threshold samples
alone. -/
theorem claim_c1_amended (cfg : VADConfig) (h0 : H) (w : List ℚ) (ps pl : ℚ)
    (n K : ℕ) (hw : w.length = WINDOW_SIZE) (hps : cfg.threshold ≤ ps)
    (hpl : ¬ cfg.threshold ≤ pl) (hn : 1 ≤ n) (hK : 1 ≤ K)
    (hKlt : (K - 1) * WINDOW_SIZE < cfg.min_silence_samples)
    (hKge : cfg.min_silence_samples ≤ K * WINDOW_SIZE) :
    empty (run_windows cfg (List.replicate n (w, ps) ++ List.replicate K (w, pl))
        (init_state h0)) =
      decide ((n + K) * WINDOW_SIZE < cfg.min_speech_samples) := by
  obtain ⟨k, rfl⟩ : ∃ k, K = k + 1 := ⟨K - 1, by omega⟩
  rw [run_windows_append, run_speech cfg w ps hps n _ hn]
  rw [run_silence_finalize cfg w pl hpl k _ rfl rfl (by simpa using hKlt) hKge]
  have hlen : (((init_state h0).speech_buf ++ (List.replicate n w).flatten) ++
      (List.replicate (k+1) w).flatten).length = (n + (k+1)) * WINDOW_SIZE := by
    rw [show (init_state h0).speech_buf = ([] : List ℚ) from rfl, List.nil_append,
      List.length_append, length_flatten_replicate, length_flatten_replicate, hw]
    ring
  rw [hlen]
  by_cases hc : cfg.min_speech_samples ≤ (n + (k+1)) * WINDOW_SIZE
  · rw [if_pos hc, decide_eq_false (not_lt.mpr hc)]
    simp [empty, init_state]
  · rw [if_neg hc, decide_eq_true (not_le.mp hc)]
    simp [empty, init_state]

/-- C1 counterexample: with the concrete configuration
(threshold 0.5, `min_silence_samples` 8000, `min_speech_samples` 4000), a
single above-threshold window (512 < 4000 speech samples) followed by 16
below-threshold windows (8192 ≥ 8000 silence samples) — exactly the premise
of C1 — yields an emitted segment: `empty()` is false, not true, because the
finalized buffer 512 + 16·512 = 8704 passes the 4000-sample test. -/
theorem claim_c1_counterexample :
    1 * WINDOW_SIZE < c2cfg.min_speech_samples ∧
    c2cfg.min_silence_samples ≤ 16 * WINDOW_SIZE ∧
    empty (run_windows c2cfg
        (List.replicate 1 (zero_window, 9/10) ++ List.replicate 16 (zero_window, 1/10))
        (init_state ())) = false := by
  refine ⟨by decide, by decide, ?_⟩
  rw [run_windows_append, run_speech c2cfg zero_window (9/10) (by norm_num [c2cfg]) 1 _ le_rfl]
  rw [show (16:ℕ) = 15 + 1 from rfl]
  rw [run_silence_finalize c2cfg zero_window (1/10) (by norm_num [c2cfg]) 15 _ rfl rfl
    (by show 15 * 512 < 8000; omega) (by show (8000:ℕ) ≤ (15+1) * 512; omega)]
  rw [if_pos (by
    show (4000:ℕ) ≤ ((((init_state ()).speech_buf ++ (List.replicate 1 zero_window).flatten)
      ++ (List.replicate (15+1) zero_window).flatten)).length
    rw [show (init_state ()).speech_buf = ([] : List ℚ) from rfl, List.nil_append,
      List.length_append, length_flatten_replicate, length_flatten_replicate,
      zero_window_length]
    norm_num [WINDOW_SIZE])]
  simp [empty, init_state]

/-- Configuration for the C1 witness: `min_speech_samples` (32000) exceeds
the whole finalized buffer, so the short run is indeed discarded. -/
def c1wcfg : VADConfig := ⟨16000, 1, 8000, 32000⟩

theorem claim_c1_amended_witness :
    empty (run_windows c1wcfg
        (List.replicate 1 (zero_window, 1) ++ List.replicate 16 (zero_window, 0))
        (init_state ())) = true :=
  (claim_c1_amended c1wcfg () zero_window 1 0 1 16 zero_window_length (le_refl 1)
    (not_le.mpr zero_lt_one) (le_refl 1) (by decide) (by decide) (by decide)).trans
    (by decide)

/-- C2 (amended): in the spec's concrete scenario (10 windows at 0.9 then
below-threshold windows at 0.1), `empty()` stays true through the 15th
silence window and first becomes false upon the 16th, exactly one segment is
enqueued, the state returns to Silence, and the remaining 4 of the 20 silence
windows change nothing — but the segment's length is 5120 + 16·512 = 13312
samples (16 silence windows are appended before finalization), not
5120 + 15·512. -/
theorem claim_c2_amended :
    (∀ i, i ≤ 15 → empty (c2_run i) = true) ∧
    empty (c2_run 16) = false ∧
    (c2_run 16).segments.length = 1 ∧
    (∀ sg ∈ (c2_run 16).segments, sg.length = 5120 + 16 * 512) ∧
    (c2_run 16).in_speech = false ∧
    c2_run 20 = c2_run 16 := by
  refine ⟨?_, ?_, ?_, ?_, ?_, c2_run_20⟩
  · intro i hi
    unfold empty
    rw [(c2_run_le15 i hi).1]
    rfl
  · unfold empty
    rw [c2_run_16]
    rfl
  · rw [c2_run_16]
    rfl
  · intro sg hsg
    rw [c2_run_16] at hsg
    rw [List.mem_singleton.mp hsg, List.length_append, length_flatten_replicate,
      length_flatten_replicate, zero_window_length]
    norm_num [WINDOW_SIZE]
  · rw [c2_run_16]

/-- C2 counterexample: in the spec's concrete scenario the single enqueued
segment has length 5120 + 16·512 = 13312, which differs from the claimed
5120 + 15·512 = 12800. -/
theorem claim_c2_counterexample :
    (c2_run 16).segments.map List.length = [5120 + 16 * 512] ∧
    (5120 + 16 * 512 : ℕ) ≠ 5120 + 15 * 512 := by
  refine ⟨?_, by decide⟩
  rw [c2_run_16]
  simp [List.length_append, length_flatten_replicate, zero_window_length, WINDOW_SIZE]

theorem claim_c2_amended_witness :
    empty (c2_run 15) = true ∧ empty (c2_run 16) = false :=
  ⟨claim_c2_amended.1 15 (by decide), claim_c2_amended.2.1⟩

/-- C3: along any window trace from the initial state, the machine moves
Silence→Speech only on a window whose probability reaches the threshold, and
Speech→Silence only on a below-threshold window terminating an unbroken run
of below-threshold windows whose total sample count reaches
`min_silence_samples`. -/
theorem claim_c3 (cfg : VADConfig) (h0 : H) (ws : List (List ℚ × ℚ)) (i : ℕ)
    (hi : i < ws.length) :
    ((run_windows cfg (ws.take i) (init_state h0)).in_speech = false →
      (run_windows cfg (ws.take (i+1)) (init_state h0)).in_speech = true →
      cfg.threshold ≤ (ws.getD i ([], 0)).2) ∧
    ((run_windows cfg (ws.take i) (init_state h0)).in_speech = true →
      (run_windows cfg (ws.take (i+1)) (init_state h0)).in_speech = false →
      (ws.getD i ([], 0)).2 < cfg.threshold ∧
      ∃ t, t ≤ i ∧ cfg.min_silence_samples ≤ (t + 1) * WINDOW_SIZE ∧
        ∀ wp ∈ (ws.take (i+1)).drop (i - t), wp.2 < cfg.threshold) := by
  have hget : ws[i]? = some (ws.getD i ([], 0)) := by
    rw [List.getElem?_eq_getElem hi, List.getD_eq_getElem ws ([], 0) hi]
  have hsplit : ws.take (i+1) = ws.take i ++ [ws.getD i ([], 0)] := by
    rw [List.take_succ, hget]
    rfl
  have hstep : run_windows cfg (ws.take (i+1)) (init_state h0) =
      update_state cfg (ws.getD i ([], 0)).1 (ws.getD i ([], 0)).2
        (run_windows cfg (ws.take i) (init_state h0)) := by
    rw [hsplit, run_windows_append]
    rfl
  set s := run_windows cfg (ws.take i) (init_state h0) with hs
  constructor
  · intro hsf hst
    by_cases hp : cfg.threshold ≤ (ws.getD i ([], 0)).2
    · exact hp
    · rw [hstep, update_state_silence_idle cfg _ _ s hp hsf] at hst
      exact absurd (hsf.symm.trans hst) (by decide)
  · intro hst hsf
    by_cases hp : cfg.threshold ≤ (ws.getD i ([], 0)).2
    · rw [hstep, update_state_speech cfg _ _ s hp] at hsf
      simp at hsf
    · refine ⟨not_le.mp hp, ?_⟩
      by_cases hsil : cfg.min_silence_samples ≤ s.silence_samples + WINDOW_SIZE
      · obtain ⟨t, ht, hcnt, hbelow⟩ := silence_counter_inv cfg h0 (ws.take i) hst
        have hlen_take : (ws.take i).length = i := by
          rw [List.length_take]; omega
        have hti : t ≤ i := by rw [hlen_take] at ht; exact ht
        refine ⟨t, hti, ?_, ?_⟩
        · rw [hcnt] at hsil
          have hmul : (t + 1) * WINDOW_SIZE = t * WINDOW_SIZE + WINDOW_SIZE := by ring
          rw [hmul]
          exact hsil
        · intro wp hwp
          rw [hsplit, List.drop_append_of_le_length (by rw [hlen_take]; omega)] at hwp
          rw [hlen_take] at hbelow
          rcases List.mem_append.mp hwp with hin | hin
          · exact not_le.mp (hbelow wp hin)
          · rw [List.mem_singleton.mp hin]
            exact not_le.mp hp
      · rw [hstep, update_state_silence_short cfg _ _ s hp hst hsil] at hsf
        exact absurd (hst.symm.trans hsf) (by decide)

/-- Window trace used to instantiate the C3 witness: one above-threshold
window, then one below-threshold window. -/
def c3wws : List (List ℚ × ℚ) := [([], 2), ([], 0)]

theorem claim_c3_witness :
    ((run_windows probe_cfg (c3wws.take 1) (init_state ())).in_speech = false →
      (run_windows probe_cfg (c3wws.take (1+1)) (init_state ())).in_speech = true →
      probe_cfg.threshold ≤ (c3wws.getD 1 ([], 0)).2) ∧
    ((run_windows probe_cfg (c3wws.take 1) (init_state ())).in_speech = true →
      (run_windows probe_cfg (c3wws.take (1+1)) (init_state ())).in_speech = false →
      (c3wws.getD 1 ([], 0)).2 < probe_cfg.threshold ∧
      ∃ t, t ≤ 1 ∧ probe_cfg.min_silence_samples ≤ (t + 1) * WINDOW_SIZE ∧
        ∀ wp ∈ (c3wws.take (1+1)).drop (1 - t), wp.2 < probe_cfg.threshold) :=
  claim_c3 probe_cfg () c3wws 1 (by decide)

/-- C7 (amended): the worker's per-frame loop drains at most TWO completed
segments (in FIFO order, pushing each non-empty transcript in completion
order); the segment queue is empty after the loop only when at most two
segments were pending — segments beyond the first two stay queued for later
frames. -/
theorem claim_c7_amended (recognize : List ℚ → String) (segs : List (List ℚ)) :
    (drain_loop recognize 0 segs []).1 = segs.drop 2 ∧
    (drain_loop recognize 0 segs []).2 =
      ((segs.take 2).filter
        (fun sg => decide (0 < sg.length ∧ recognize sg ≠ ""))).map recognize ∧
    (segs.length ≤ 2 → (drain_loop recognize 0 segs []).1 = []) := by
  refine ⟨(drain_loop_spec recognize segs).1, (drain_loop_spec recognize segs).2, ?_⟩
  intro hle
  rw [(drain_loop_spec recognize segs).1]
  exact List.drop_eq_nil_of_le hle

theorem claim_c7_amended_witness :
    (drain_loop recognize_const 0 [[0]] []).1 = [] :=
  (claim_c7_amended recognize_const [[0]]).2.2 (by decide)

/-- C7 counterexample: a worker step on a frame finding three completed
segments queued leaves one segment behind after the per-frame
segment-processing loop — the loop is capped at two pops per frame, so the
segmenter's queue is NOT always empty when the next frame is dequeued. -/
theorem claim_c7_counterexample :
    (worker_step inferU c2cfg recognize_const c7_ps).1.vad.segments ≠ [] ∧
    (worker_step inferU c2cfg recognize_const c7_ps).1.vad.segments.length = 1 := by
  constructor
  · decide
  · decide

/-- C9 (amended): while the suppression flag is set the worker consumes and
discards each dequeued frame without touching the segmenter, and the
`_play_and_clear` path that ends playback ONLY clears the flag: it does not
purge the frame channel and it does not reset (flush) the segmenter — frames
still queued when the flag clears are processed normally afterwards. -/
theorem claim_c9_amended (infer : H → List ℚ → ℚ × H) (cfg : VADConfig)
    (recognize : List ℚ → String) (ps : PipelineState H) (hp : ps.tts_playing = true) :
    (play_and_clear ps).queue = ps.queue ∧
    (play_and_clear ps).vad = ps.vad ∧
    (play_and_clear ps).tts_playing = false ∧
    (worker_step infer cfg recognize ps).1.vad = ps.vad ∧
    (worker_step infer cfg recognize ps).2 = [] ∧
    (worker_step infer cfg recognize ps).1.queue = ps.queue.drop 1 := by
  obtain ⟨q, t, v⟩ := ps
  simp only at hp
  subst hp
  refine ⟨rfl, rfl, rfl, ?_, ?_, ?_⟩ <;>
    cases q with
    | nil => rfl
    | cons f rest => rfl

theorem claim_c9_amended_witness :
    (play_and_clear c9_ps).queue = c9_ps.queue ∧
    (play_and_clear c9_ps).vad = c9_ps.vad ∧
    (play_and_clear c9_ps).tts_playing = false ∧
    (worker_step inferU c2cfg recognize_const c9_ps).1.vad = c9_ps.vad ∧
    (worker_step inferU c2cfg recognize_const c9_ps).2 = [] ∧
    (worker_step inferU c2cfg recognize_const c9_ps).1.queue = c9_ps.queue.drop 1 :=
  claim_c9_amended inferU c2cfg recognize_const c9_ps rfl

/-- C9 counterexample: the suppression-clearing action clears the flag while
a playback-era frame is still in the channel and while the segmenter still
holds its pre-playback mid-utterance state (`in_speech` is still true,
whereas a `flush()` would have returned it to Silence) — no purge and no
reset happen before the flag is cleared. -/
theorem claim_c9_counterexample :
    (play_and_clear c9_ps).tts_playing = false ∧
    (play_and_clear c9_ps).queue ≠ [] ∧
    (play_and_clear c9_ps).vad.in_speech = true ∧
    (flush inferU c2cfg c9_ps.vad).in_speech = false := by
  exact ⟨rfl, by decide, rfl, rfl⟩

end Ahin
